import Mathlib

/-! Shallow embedding of the Tiller Streamlit data pipeline
(`src/tiller_streamlit.py`).  DataFrames are modelled as lists of records,
machine floats as rationals, and pandas NaN as `Option`.  Each definition
is translated from the source function named in its doc comment. -/

/-- A row of the enriched Transactions table.  `idx` is the pandas row
index, `typ` the `Type` column and `group` the `Group` column.  The
classifier output columns `amount_pct` and `amount_category_pct` are
carried on every row (0 before the classifier assigns them). -/
structure TxRow where
  idx : Nat
  category : String
  typ : String := ""
  group : String := ""
  amount : ℚ
  amount_category : ℚ := 0
  amount_pct : ℚ := 0
  amount_category_pct : ℚ := 0
  deriving Repr, DecidableEq

/-- `transaction_data.groupby(["Category"])["Amount"].sum()` for one
category: total signed amount of the rows of that category. -/
def catTotal (t : List TxRow) (c : String) : ℚ :=
  ((t.filter (fun r => r.category == c)).map (fun r => r.amount)).sum

/-- `_add_per_category_amount`: attach each category's total to every
row of that category (column `amount_category`). -/
def addPerCategoryAmount (t : List TxRow) : List TxRow :=
  t.map (fun r => { r with amount_category := catTotal t r.category })

/-- `_add_category_group`: attach `Group` and `Type` via the category
lookup; the lookup functions already default to "" for missing keys
(`category_to_group.get(x, "")`). -/
def addCategoryGroup (lookupGroup lookupType : String → String)
    (t : List TxRow) : List TxRow :=
  t.map (fun r => { r with group := lookupGroup r.category,
                           typ := lookupType r.category })

/-- First filter of `_to_spending` (line 83): `amount_category < 0`. -/
def spendPred1 (r : TxRow) : Bool := decide (r.amount_category < 0)

/-- Second filter of `_to_spending` (lines 84-89): Type is not Transfer
and Category is none of the three excluded categories. -/
def spendPred2 (r : TxRow) : Bool :=
  (!(r.typ == "Transfer")) && (!(r.category == "Investments in Stocks"))
    && (!(r.category == "Investments in Crypto"))
    && (!(r.category == "Credit Card Payment"))

/-- The rows surviving both filters of `_to_spending`. -/
def spendingRows (t : List TxRow) : List TxRow :=
  (t.filter spendPred1).filter spendPred2

/-- `df["Amount"].sum()` over the filtered spending rows. -/
def spendingTotal (t : List TxRow) : ℚ :=
  ((spendingRows t).map (fun r => r.amount)).sum

/-- `_to_spending` (lines 82-94): filter to spending rows, assign
`amount_pct` (row share of total), recompute the total, assign
`amount_category_pct` (category share of total), and negate `Amount`. -/
def toSpending (t : List TxRow) : List TxRow :=
  let df := spendingRows t
  let df := df.map (fun r =>
    { r with amount_pct := r.amount / ((df.map (fun x : TxRow => x.amount)).sum) * 100 })
  let total := (df.map (fun x : TxRow => x.amount)).sum
  let df := df.map (fun r =>
    { r with amount_category_pct := r.amount_category / total * 100 })
  let df := df.map (fun r => { r with amount := -r.amount })
  df

/-- A table is enriched when every row carries its category's total,
as `_add_per_category_amount` guarantees. -/
def Enriched (t : List TxRow) : Prop :=
  ∀ r ∈ t, r.amount_category = catTotal t r.category

/-- Rows of one category share the `Type` column, as `_add_category_group`
guarantees (Type is a function of Category). -/
def TypeConsistent (t : List TxRow) : Prop :=
  ∀ r ∈ t, ∀ s ∈ t, r.category = s.category → r.typ = s.typ

/-- Spec-side definition ("each category's share of total spending"):
a category's total amount as a percentage of the total spending amount. -/
def specCategoryPct (t : List TxRow) (c : String) : ℚ :=
  catTotal t c / spendingTotal t * 100

/-- The spec's scenario table: two Rent rows of -1000 and one Paycheck
row of 3000, enriched with category totals and types. -/
def exSpecTable : List TxRow :=
  [ { idx := 0, category := "Rent", typ := "Expense",
      amount := -1000, amount_category := -2000 },
    { idx := 1, category := "Rent", typ := "Expense",
      amount := -1000, amount_category := -2000 },
    { idx := 2, category := "Paycheck", typ := "Income",
      amount := 3000, amount_category := 3000 } ]

/-- The first row of `exSpecTable`. -/
def exRow0 : TxRow :=
  { idx := 0, category := "Rent", typ := "Expense",
    amount := -1000, amount_category := -2000 }

/-- `clean_amount`'s `x.replace("$", "").replace(",", "")`: drop every
dollar sign and comma character. -/
def stripCurrency (s : String) : String :=
  String.mk (s.data.filter (fun c => (!(c == '$')) && (!(c == ','))))

/-- Value of a digit string. -/
def digitsToNat (cs : List Char) : Nat :=
  cs.foldl (fun n c => n * 10 + (c.toNat - 48)) 0

/-- Python `float()` on an unsigned decimal literal: digits with at most
one decimal point and at least one digit.  (Exponent, inf, nan and
underscore forms do not occur in currency-formatted data and are not
modelled.) -/
def parseUnsigned (cs : List Char) : Option ℚ :=
  let ip := cs.takeWhile (fun c => !(c == '.'))
  let rest := cs.dropWhile (fun c => !(c == '.'))
  match rest with
  | [] =>
    if (!ip.isEmpty) && ip.all (fun c => c.isDigit) then
      some ((digitsToNat ip : ℚ))
    else none
  | _ :: fp =>
    if ((!ip.isEmpty) || (!fp.isEmpty)) && ip.all (fun c => c.isDigit)
        && fp.all (fun c => c.isDigit) then
      some ((digitsToNat ip : ℚ) + (digitsToNat fp : ℚ) / (10 : ℚ) ^ fp.length)
    else none

/-- Python `float()` on a decimal literal with optional sign, as a
function of the character list. -/
def pyFloatCore (cs : List Char) : Option ℚ :=
  match cs with
  | [] => parseUnsigned []
  | c :: rest =>
    if c == '+' then parseUnsigned rest
    else if c == '-' then (parseUnsigned rest).map (fun q => -q)
    else parseUnsigned (c :: rest)

/-- Python `float()` on a decimal literal with optional sign. -/
def pyFloat (s : String) : Option ℚ := pyFloatCore s.data

/-- The characters form a well-formed unsigned decimal numeral: digits
with at most one decimal point and at least one digit. -/
def numeralCore (cs : List Char) : Bool :=
  let ip := cs.takeWhile (fun c => !(c == '.'))
  let rest := cs.dropWhile (fun c => !(c == '.'))
  match rest with
  | [] => (!ip.isEmpty) && ip.all (fun c => c.isDigit)
  | _ :: fp =>
    ((!ip.isEmpty) || (!fp.isEmpty)) && ip.all (fun c => c.isDigit)
      && fp.all (fun c => c.isDigit)

/-- The characters form a well-formed decimal numeral with optional
sign. -/
def isNumericChars (cs : List Char) : Bool :=
  match cs with
  | [] => numeralCore []
  | c :: rest =>
    if c == '+' then numeralCore rest
    else if c == '-' then numeralCore rest
    else numeralCore (c :: rest)

/-- The string is a well-formed decimal numeral with optional sign. -/
def isNumericStr (s : String) : Bool := isNumericChars s.data

/-- `clean_amount` (lines 70-72): strip "$" and "," and parse as a float;
`none` models the ValueError float() raises on a non-numeric residual. -/
def cleanAmount (s : String) : Option ℚ := pyFloat (stripCurrency s)

/-- `df["Amount"].apply(clean_amount)` (line 63): one failure makes the
whole column fail — the error propagates, no value is defaulted. -/
def cleanAmountColumn : List String → Option (List ℚ)
  | [] => some []
  | s :: xs =>
    match cleanAmount s, cleanAmountColumn xs with
    | some v, some vs => some (v :: vs)
    | _, _ => none

/-- A row of the Balance History table (after `get_balance_history`
parsed Balance to a number); `date` is a day number, `cls` the `Class`
column. -/
structure BalRow where
  accountId : String
  account : String
  cls : String
  date : Nat
  balance : ℚ
  deriving Repr, DecidableEq

/-- A row of the resampled output.  The descriptive columns and the
balance are `Option` because pandas can leave NaN in them; `fillna(0)`
is modelled by producing `some`. -/
structure RBRow where
  accountId : String
  account : Option String
  cls : Option String
  date : Nat
  balance : Option ℚ
  deriving Repr, DecidableEq

/-- `drop_duplicates(subset=["Account ID", "Date"], keep="last")`
(line 106): keep, for each (account, date) key, only the last row,
in the original row order. -/
def dropDupLast (l : List BalRow) : List BalRow :=
  l.foldr (fun r acc =>
    if acc.any (fun x => x.accountId == r.accountId && x.date == r.date)
    then acc else r :: acc) []

/-- Strict lexicographic order on character lists by code point (the
order pandas uses on string values). -/
def charListLt : List Char → List Char → Bool
  | [], [] => false
  | [], _ :: _ => true
  | _ :: _, [] => false
  | a :: as, b :: bs =>
    if a.toNat < b.toNat then true
    else if b.toNat < a.toNat then false
    else charListLt as bs

/-- Lexicographic (Account ID, Date) order used by `sort_values`
(line 109). -/
def accountDateLe (a b : BalRow) : Bool :=
  charListLt a.accountId.data b.accountId.data
    || (a.accountId == b.accountId && decide (a.date ≤ b.date))

/-- Insert a row into a list sorted by `le`, before the first element it
compares `le` to. -/
def insertSorted (r : BalRow) : List BalRow → List BalRow
  | [] => [r]
  | x :: xs =>
    if accountDateLe r x then r :: x :: xs else x :: insertSorted r xs

/-- `sort_values(by=["Account ID", "Date"])` (line 109), as an insertion
sort; the sort keys are unique after the deduplication, so any sorting
algorithm yields the same table. -/
def sortByAccountDate (l : List BalRow) : List BalRow :=
  l.foldr insertSorted []

/-- Line 110: negate the balance of Liability rows. -/
def signFlip (r : BalRow) : BalRow :=
  if r.cls == "Liability" then { r with balance := -r.balance } else r

/-- The deduplicated, sorted, sign-adjusted snapshot table (lines
106-110). -/
def balPrepared (df : List BalRow) : List BalRow :=
  (sortByAccountDate (dropDupLast df)).map signFlip

/-- Minimum of a list of day numbers (`df_["Date"].min()`). -/
def listMin : List Nat → Nat
  | [] => 0
  | x :: xs => xs.foldl min x

/-- `df_["Date"].min()` (line 114). -/
def balMinDate (df : List BalRow) : Nat :=
  listMin ((balPrepared df).map (fun r => r.date))

/-- `pd.date_range(start=lo, end=hi, freq="D")`: the days lo, ..., hi. -/
def dayRange (lo hi : Nat) : List Nat :=
  (List.range (hi + 1 - lo)).map (fun i => lo + i)

/-- The group keys of `groupby("Account ID")`: the distinct account ids
(already in ascending order because the table was sorted). -/
def balAccounts (df : List BalRow) : List String :=
  ((balPrepared df).map (fun r => r.accountId)).dedup

/-- Forward fill: each `none` is replaced by the last preceding `some`. -/
def ffillGo {α : Type} (prev : Option α) : List (Option α) → List (Option α)
  | [] => []
  | none :: rest => prev :: ffillGo prev rest
  | some v :: rest => some v :: ffillGo (some v) rest

/-- `ffill()` on an Option column. -/
def ffill {α : Type} (l : List (Option α)) : List (Option α) :=
  ffillGo none l

/-- `bfill()` on an Option column. -/
def bfill {α : Type} (l : List (Option α)) : List (Option α) :=
  (ffill l.reverse).reverse

/-- The last known value strictly before position `i` of the column,
with its position. -/
def lastSomeBefore (col : List (Option ℚ)) : Nat → Option (Nat × ℚ)
  | 0 => none
  | k + 1 =>
    match col.getD k none with
    | some v => some (k, v)
    | none => lastSomeBefore col k

/-- The first known value at position `j` or later of the column, with
its position. -/
def firstSomeFrom (col : List (Option ℚ)) (j : Nat) : Option (Nat × ℚ) :=
  if _h : j < col.length then
    match col.getD j none with
    | some v => some (j, v)
    | none => firstSomeFrom col (j + 1)
  else none
termination_by col.length - j

/-- `Series.interpolate(method="linear", limit_direction="forward")` at
one position: known values stay; a gap between two known values is
linearly interpolated; a gap after the last known value is filled with
that value; a gap before the first known value stays NaN. -/
def interpAt (col : List (Option ℚ)) (i : Nat) : Option ℚ :=
  match col.getD i none with
  | some v => some v
  | none =>
    match lastSomeBefore col i, firstSomeFrom col (i + 1) with
    | some (j1, v1), some (j2, v2) =>
      some (v1 + (v2 - v1) * ((i : ℚ) - (j1 : ℚ)) / ((j2 : ℚ) - (j1 : ℚ)))
    | some (_, v1), none => some v1
    | none, _ => none

/-- `interpolate(method="linear", limit_direction="forward")` on the
whole column (line 126-128). -/
def interpolateFwd (col : List (Option ℚ)) : List (Option ℚ) :=
  (List.range col.length).map (interpAt col)

/-- `fillna(0)` (line 129) on one cell. -/
def fillna0 (o : Option ℚ) : Option ℚ := some (o.getD 0)

/-- `process_group` (lines 118-130): reindex the group onto the full
daily grid, forward/backward fill the non-balance columns, interpolate
the balance and zero the residual NaNs. -/
def processGroup (a : String) (idx : List Nat) (rows : List BalRow) :
    List RBRow :=
  let balRe := idx.map (fun d => (rows.find? (fun r => r.date == d)).map
    (fun r => r.balance))
  let accCol := bfill (ffill (idx.map (fun d =>
    (rows.find? (fun r => r.date == d)).map (fun r => r.account))))
  let clsCol := bfill (ffill (idx.map (fun d =>
    (rows.find? (fun r => r.date == d)).map (fun r => r.cls))))
  let balCol := (interpolateFwd balRe).map fillna0
  (List.range idx.length).map (fun i =>
    { accountId := a, account := accCol.getD i none,
      cls := clsCol.getD i none, date := idx.getD i 0,
      balance := balCol.getD i none })

/-- `resampled_balance_history(df)` (lines 104-140) with `today` passed
explicitly (`pd.to_datetime("today").normalize()`). -/
def resampledBalanceHistory (today : Nat) (df : List BalRow) :
    List RBRow :=
  let df3 := balPrepared df
  let idx := dayRange (balMinDate df) today
  (balAccounts df).flatMap (fun a =>
    processGroup a idx (df3.filter (fun r => r.accountId == a)))

/-- Two snapshots of one account and a later first snapshot of another:
account B's day 0 is a leading gap. -/
def exBalLead : List BalRow :=
  [ { accountId := "A", account := "Checking", cls := "Asset",
      date := 0, balance := 100 },
    { accountId := "B", account := "Savings", cls := "Asset",
      date := 1, balance := 500 } ]

/-- The spec's interpolation scenario: one account with snapshots at
days 1 and 5 of values 100 and 500. -/
def exBalInterp : List BalRow :=
  [ { accountId := "A", account := "Checking", cls := "Asset",
      date := 1, balance := 100 },
    { accountId := "A", account := "Checking", cls := "Asset",
      date := 5, balance := 500 } ]

/-- `Series.rolling(window, min_periods).mean()` over a column without
NaNs: at position `i` the window covers the last `min(i+1, window)`
values; if at least `minPeriods` values are available their mean is
taken, otherwise the result is NaN. -/
def rollingMean (window minPeriods : Nat) (xs : List ℚ) :
    List (Option ℚ) :=
  (List.range xs.length).map (fun i =>
    let vals := (xs.take (i + 1)).drop (i + 1 - window)
    if minPeriods ≤ vals.length then
      some (vals.sum / (vals.length : ℚ))
    else none)

/-- `x.rolling(window=n_months_ma, min_periods=1).mean()` — the
per-category moving average of `plot_categories_per_month` (line 293). -/
def categoryMovingAvg (n : Nat) (xs : List ℚ) : List (Option ℚ) :=
  rollingMean n 1 xs

/-- `df_monthly_no_incomplete["Amount"].rolling(window=n_months).mean()`
— the total moving average of `plot_total_spending_per_month`
(line 374); `min_periods` is not passed, so pandas defaults it to the
window size. -/
def totalMovingAvg (n : Nat) (xs : List ℚ) : List (Option ℚ) :=
  rollingMean n n xs

/-- A calendar month (`pd.Period("M")` / the (year, month) pair of a
timestamp). -/
structure YMonth where
  year : Nat
  month : Nat
  deriving Repr, DecidableEq

/-- Chronological comparison of months, as comparison of month-start
timestamps or of zero-padded "YYYY-MM" strings. -/
def monthLt (a b : YMonth) : Bool :=
  decide (a.year < b.year)
    || (a.year == b.year && decide (a.month < b.month))

/-- Maximum of a list of months (`df["Date"].max()`). -/
def maxMonth : List YMonth → YMonth
  | [] => { year := 0, month := 0 }
  | m :: ms => ms.foldl (fun a b => if monthLt a b then b else a) m

/-- A row of `df_grouped` in `plot_categories_per_month`: month,
category, summed amount. -/
structure CatMonthRow where
  month : YMonth
  category : String
  amount : ℚ
  deriving Repr, DecidableEq

/-- Lines 273-286 of `plot_categories_per_month`: if the latest month in
the data is the current calendar month (month and year both match
today's), drop that month (`Date < latest_date_in_data`) before the
rolling average; otherwise keep the data unchanged. -/
def excludeIncompleteCat (cur : YMonth) (rows : List CatMonthRow) :
    List CatMonthRow :=
  let latest := maxMonth (rows.map (fun r => r.month))
  if latest.month == cur.month && latest.year == cur.year then
    rows.filter (fun r => monthLt r.month latest)
  else rows

/-- Lines 356-366 of `plot_total_spending_per_month`: if the last month
string equals the current month string, drop its rows
(`Date != last_month`) before the moving averages; otherwise copy the
data unchanged. -/
def excludeIncompleteTotal (cur : YMonth) (rows : List (YMonth × ℚ)) :
    List (YMonth × ℚ) :=
  let last := maxMonth (rows.map Prod.fst)
  if last == cur then rows.filter (fun r => !(r.fst == last)) else rows

/-- Example monthly by-category rows. -/
def exRowsCat : List CatMonthRow :=
  [ { month := { year := 2024, month := 1 }, category := "Rent",
      amount := 100 },
    { month := { year := 2024, month := 2 }, category := "Rent",
      amount := 200 } ]

/-- Example monthly total rows. -/
def exRowsTot : List (YMonth × ℚ) :=
  [ ({ year := 2024, month := 1 }, 100),
    ({ year := 2024, month := 2 }, 200) ]

/-- `x.n * 12`-free month index used for period subtraction:
`most_recent_month - month` in months. -/
def monthIndex (m : YMonth) : Nat := m.year * 12 + m.month

/-- Zero-padded two-digit month. -/
def pad2 (n : Nat) : String :=
  if n < 10 then "0" ++ toString n else toString n

/-- `strftime("%Y-%m")`. -/
def ymStr (m : YMonth) : String :=
  toString m.year ++ "-" ++ pad2 m.month

/-- Lines 410-417 of `plot_comparative_spending` for one row: build
"{n} months ago, YYYY-MM" from the offset to the most recent month,
then replace any label whose text CONTAINS the substring
"0 months ago" by "This Month, YYYY-MM" (`.str.contains`). -/
def relativeMonthLabel (mostRecent m : YMonth) : String :=
  let base := toString (monthIndex mostRecent - monthIndex m)
    ++ " months ago, " ++ ymStr m
  if decide (("0 months ago".data) <:+: base.data) then
    "This Month, " ++ ymStr mostRecent
  else base

/-- The relative-month labels of a list of rows, one per row month. -/
def comparativeLabels (months : List YMonth) : List String :=
  let mostRecent := maxMonth months
  months.map (relativeMonthLabel mostRecent)

/-- A pandas session: named frames addressed by handles.  Column
assignment mutates the frame a handle points at; `.copy()` allocates a
fresh handle. -/
abbrev Store := List (Nat × List TxRow)

/-- Read the frame a handle points at. -/
def storeGet (s : Store) (h : Nat) : List TxRow :=
  match s.find? (fun p => p.fst == h) with
  | some p => p.snd
  | none => []

/-- Overwrite the frame a handle points at. -/
def storeSet (s : Store) (h : Nat) (t : List TxRow) : Store :=
  s.map (fun p => if p.fst == h then (h, t) else p)

/-- A handle not used by any frame of the store. -/
def freshHandle (s : Store) : Nat :=
  (s.map Prod.fst).foldl max 0 + 1

/-- `_to_spending` with explicit frame mutation: the mask selection plus
`.copy()` (line 83) and the second mask selection (lines 84-89) allocate
new frames; the three column assignments (lines 90-93) mutate only the
new frame.  Returns the final store and the handle of the result. -/
def toSpendingMut (s : Store) (input : Nat) : Store × Nat :=
  let t := storeGet s input
  let df0 := t.filter spendPred1
  let h1 := freshHandle s
  let s1 : Store := (h1, df0) :: s
  let df1 := (storeGet s1 h1).filter spendPred2
  let h2 := freshHandle s1
  let s2 : Store := (h2, df1) :: s1
  let s3 := storeSet s2 h2 ((storeGet s2 h2).map (fun r =>
    { r with amount_pct :=
        r.amount / (((storeGet s2 h2).map (fun x : TxRow => x.amount)).sum) * 100 }))
  let total := ((storeGet s3 h2).map (fun x : TxRow => x.amount)).sum
  let s4 := storeSet s3 h2 ((storeGet s3 h2).map (fun r =>
    { r with amount_category_pct := r.amount_category / total * 100 }))
  let s5 := storeSet s4 h2 ((storeGet s4 h2).map (fun r =>
    { r with amount := -r.amount }))
  (s5, h2)

/-- A one-frame store holding the scenario table. -/
def exStore : Store := [(0, exSpecTable)]

/-- The per-row transformation `_to_spending` applies to the rows that
survive its filters, with the spending total as parameter. -/
def spendTransform (total : ℚ) (r : TxRow) : TxRow :=
  { r with amount_pct := r.amount / total * 100,
           amount_category_pct := r.amount_category / total * 100,
           amount := -r.amount }

theorem toSpending_eq_map (t : List TxRow) :
    toSpending t = (spendingRows t).map (spendTransform (spendingTotal t)) := by
  unfold toSpending spendingTotal
  simp only [List.map_map]
  rfl

theorem mem_spendingRows (t : List TxRow) (r : TxRow) :
    r ∈ spendingRows t ↔
      r ∈ t ∧ r.amount_category < 0 ∧ r.typ ≠ "Transfer"
        ∧ r.category ≠ "Investments in Stocks"
        ∧ r.category ≠ "Investments in Crypto"
        ∧ r.category ≠ "Credit Card Payment" := by
  unfold spendingRows
  simp only [List.mem_filter, spendPred1, spendPred2, Bool.and_eq_true,
    Bool.not_eq_true', beq_eq_false_iff_ne, decide_eq_true_eq]
  tauto

theorem idx_toSpending (t : List TxRow) :
    (toSpending t).map TxRow.idx = (spendingRows t).map TxRow.idx := by
  rw [toSpending_eq_map, List.map_map]
  rfl

/-- C1: for every enriched transaction table (in fact for every table),
a row appears in the output of `_to_spending` — identified by its pandas
index — iff its `amount_category` is strictly negative, its Type is not
"Transfer" and its Category is none of the three excluded categories;
in particular a row whose category total is exactly zero is excluded. -/
theorem spending_membership_c1 (t : List TxRow)
    (hnd : (t.map TxRow.idx).Nodup) (r : TxRow) (hr : r ∈ t) :
    (r.idx ∈ (toSpending t).map TxRow.idx ↔
      (r.amount_category < 0 ∧ r.typ ≠ "Transfer"
        ∧ r.category ≠ "Investments in Stocks"
        ∧ r.category ≠ "Investments in Crypto"
        ∧ r.category ≠ "Credit Card Payment"))
  ∧ (r.amount_category = 0 → r.idx ∉ (toSpending t).map TxRow.idx) := by
  have hiff : r.idx ∈ (toSpending t).map TxRow.idx ↔
      (r.amount_category < 0 ∧ r.typ ≠ "Transfer"
        ∧ r.category ≠ "Investments in Stocks"
        ∧ r.category ≠ "Investments in Crypto"
        ∧ r.category ≠ "Credit Card Payment") := by
    rw [idx_toSpending]
    constructor
    · intro hmem
      obtain ⟨r2, hr2, hidx⟩ := List.mem_map.mp hmem
      have hr2t : r2 ∈ t := ((mem_spendingRows t r2).mp hr2).1
      have heq : r2 = r := List.inj_on_of_nodup_map hnd hr2t hr hidx
      subst heq
      exact ((mem_spendingRows t r2).mp hr2).2
    · intro hprops
      exact List.mem_map.mpr ⟨r, (mem_spendingRows t r).mpr ⟨hr, hprops⟩, rfl⟩
  refine ⟨hiff, fun hzero hmem => ?_⟩
  have := (hiff.mp hmem).1
  rw [hzero] at this
  exact absurd this (lt_irrefl 0)

theorem spending_membership_c1_witness :
    ((exRow0.idx ∈ (toSpending exSpecTable).map TxRow.idx ↔
      (exRow0.amount_category < 0 ∧ exRow0.typ ≠ "Transfer"
        ∧ exRow0.category ≠ "Investments in Stocks"
        ∧ exRow0.category ≠ "Investments in Crypto"
        ∧ exRow0.category ≠ "Credit Card Payment"))
  ∧ (exRow0.amount_category = 0 →
      exRow0.idx ∉ (toSpending exSpecTable).map TxRow.idx)) :=
  spending_membership_c1 exSpecTable (by decide) exRow0 (by decide)

theorem spendingRows_toSpending (t : List TxRow) :
    spendingRows (toSpending t) = toSpending t := by
  rw [toSpending_eq_map]
  show List.filter spendPred2 (List.filter spendPred1
      ((spendingRows t).map (spendTransform (spendingTotal t))))
    = (spendingRows t).map (spendTransform (spendingTotal t))
  rw [List.filter_map, List.filter_map]
  have h1 : (spendPred1 ∘ spendTransform (spendingTotal t)) = spendPred1 := rfl
  have h2 : (spendPred2 ∘ spendTransform (spendingTotal t)) = spendPred2 := rfl
  rw [h1, h2]
  have hp1 : List.filter spendPred1 (spendingRows t) = spendingRows t := by
    apply List.filter_eq_self.mpr
    intro a ha
    have ha1 : a ∈ List.filter spendPred1 t := List.mem_of_mem_filter ha
    exact List.of_mem_filter ha1
  rw [hp1]
  have hp2 : List.filter spendPred2 (spendingRows t) = spendingRows t := by
    apply List.filter_eq_self.mpr
    intro a ha
    exact List.of_mem_filter ha
  rw [hp2]

/-- C7: `_to_spending` is idempotent on row sets: applied to its own
output it selects every row again, so the row indices are unchanged. -/
theorem spending_idempotent_c7 (t : List TxRow) :
    (toSpending (toSpending t)).map TxRow.idx
      = (toSpending t).map TxRow.idx := by
  rw [idx_toSpending (toSpending t), spendingRows_toSpending]

theorem parseUnsigned_isSome (cs : List Char) :
    (parseUnsigned cs).isSome = numeralCore cs := by
  simp only [parseUnsigned, numeralCore]
  split <;> split_ifs <;> simp_all

theorem cleanAmount_isSome (s : String) :
    (cleanAmount s).isSome = isNumericStr (stripCurrency s) := by
  unfold cleanAmount pyFloat isNumericStr pyFloatCore isNumericChars
  cases (stripCurrency s).data with
  | nil => exact parseUnsigned_isSome []
  | cons c rest =>
    by_cases h1 : c == '+'
    · simp [h1, parseUnsigned_isSome]
    · by_cases h2 : c == '-'
      · simp [h1, h2, parseUnsigned_isSome, Option.isSome_map]
      · simp [h1, h2, parseUnsigned_isSome]

theorem cleanAmountColumn_isSome (xs : List String) :
    (cleanAmountColumn xs).isSome
      = xs.all (fun s => isNumericStr (stripCurrency s)) := by
  induction xs with
  | nil => rfl
  | cons s xs ih =>
    rw [List.all_cons, ← cleanAmount_isSome s, ← ih]
    cases hs : cleanAmount s with
    | none =>
      have h2 : cleanAmountColumn (s :: xs) = none := by
        unfold cleanAmountColumn
        rw [hs]
      rw [h2]
      simp
    | some v =>
      cases hxs : cleanAmountColumn xs with
      | none =>
        have h2 : cleanAmountColumn (s :: xs) = none := by
          unfold cleanAmountColumn
          rw [hs, hxs]
        rw [h2]
        rfl
      | some vs =>
        have h2 : cleanAmountColumn (s :: xs) = some (v :: vs) := by
          unfold cleanAmountColumn
          rw [hs, hxs]
        rw [h2]
        rfl

theorem rollingMean_length (w mp : Nat) (xs : List ℚ) :
    (rollingMean w mp xs).length = xs.length := by
  simp [rollingMean]

theorem rollingMean_getD (w mp : Nat) (xs : List ℚ) (i : Nat)
    (hi : i < xs.length) :
    (rollingMean w mp xs).getD i none
      = (if mp ≤ ((xs.take (i + 1)).drop (i + 1 - w)).length then
          some (((xs.take (i + 1)).drop (i + 1 - w)).sum
            / (((xs.take (i + 1)).drop (i + 1 - w)).length : ℚ))
        else none) := by
  have hlen : i < (rollingMean w mp xs).length := by
    rwa [rollingMean_length]
  rw [List.getD_eq_getElem _ _ hlen]
  simp only [rollingMean, List.getElem_map, List.getElem_range]

/-- C5 counterexample: in the total mode (`rolling(window=n_months)`
without `min_periods`), monthly amounts [100, 200, 300] with a 2-month
window give [NaN, 150, 250], not the [100, 150, 250] the claim states:
the first month produces no value. -/
theorem rolling_default_counterexample_c5 :
    totalMovingAvg 2 [100, 200, 300] = [none, some 150, some 250]
  ∧ totalMovingAvg 2 [100, 200, 300]
      ≠ [some 100, some 150, some 250] := by
  constructor
  · simp [totalMovingAvg, rollingMean, List.range_succ]
    norm_num
  · decide

/-- C5 amended: the by-category mode passes `min_periods=1`, so every
month produces a defined value and [100, 200, 300] with a 2-month window
gives [100, 150, 250]; the total mode leaves `min_periods` at its
default (the window size), so exactly the months with fewer than N-1
predecessors are undefined. -/
theorem rolling_mean_policy_c5 (n : Nat) (hn : 1 ≤ n) (xs : List ℚ) :
    (∀ o ∈ categoryMovingAvg n xs, o.isSome = true)
  ∧ categoryMovingAvg 2 [100, 200, 300] = [some 100, some 150, some 250]
  ∧ (∀ i, i < xs.length →
      ((totalMovingAvg n xs).getD i none = none ↔ i + 1 < n)) := by
  refine ⟨?_, ?_, ?_⟩
  · intro o ho
    unfold categoryMovingAvg rollingMean at ho
    obtain ⟨i, hi, rfl⟩ := List.mem_map.mp ho
    have hi2 : i < xs.length := List.mem_range.mp hi
    have hlen : 1 ≤ ((xs.take (i + 1)).drop (i + 1 - n)).length := by
      rw [List.length_drop, List.length_take]
      omega
    dsimp only
    rw [if_pos hlen]
    rfl
  · simp [categoryMovingAvg, rollingMean, List.range_succ]
    norm_num
  · intro i hi
    unfold totalMovingAvg
    rw [rollingMean_getD n n xs i hi]
    simp only [List.length_drop, List.length_take]
    split_ifs with h
    · have hlt : ¬ (i + 1 < n) := by omega
      simp [hlt]
    · have hlt : i + 1 < n := by omega
      simp [hlt]

theorem rolling_mean_policy_c5_witness :
    categoryMovingAvg 2 [100, 200, 300]
      = [some 100, some 150, some 250] :=
  (rolling_mean_policy_c5 2 (by decide) []).2.1

theorem YMonth.ext_eq (a b : YMonth)
    (h1 : a.year = b.year) (h2 : a.month = b.month) : a = b := by
  cases a
  cases b
  simp_all

theorem monthLt_irrefl (m : YMonth) : monthLt m m = false := by
  simp [monthLt]

theorem foldl_maxMonth_mem (ms : List YMonth) :
    ∀ a : YMonth,
      ms.foldl (fun x b => if monthLt x b then b else x) a ∈ a :: ms := by
  induction ms with
  | nil => intro a; simp
  | cons b ms ih =>
    intro a
    simp only [List.foldl_cons]
    rcases List.mem_cons.mp (ih (if monthLt a b then b else a)) with h | h
    · rw [h]
      by_cases hab : monthLt a b <;> simp [hab]
    · exact List.mem_cons_of_mem a (List.mem_cons_of_mem b h)

theorem maxMonth_mem (ms : List YMonth) (h : ms ≠ []) :
    maxMonth ms ∈ ms := by
  cases ms with
  | nil => exact absurd rfl h
  | cons m ms => exact foldl_maxMonth_mem ms m

/-- C6: in both monthly modes, iff the latest month in the data equals
the current calendar month, that month is removed from the series the
rolling averages are computed over (`excludeIncompleteCat` /
`excludeIncompleteTotal`), while it stays present in the raw monthly
series (the unfiltered input, which both functions plot as bars). -/
theorem incomplete_month_exclusion_c6 (cur : YMonth)
    (rowsC : List CatMonthRow) (rowsT : List (YMonth × ℚ))
    (hC : rowsC ≠ []) (hT : rowsT ≠ []) :
    (maxMonth (rowsC.map (fun r => r.month))
      ∈ rowsC.map (fun r => r.month))
  ∧ (maxMonth (rowsC.map (fun r => r.month)) = cur →
      maxMonth (rowsC.map (fun r => r.month))
        ∉ (excludeIncompleteCat cur rowsC).map (fun r => r.month))
  ∧ (maxMonth (rowsC.map (fun r => r.month)) ≠ cur →
      excludeIncompleteCat cur rowsC = rowsC)
  ∧ (maxMonth (rowsT.map Prod.fst) ∈ rowsT.map Prod.fst)
  ∧ (maxMonth (rowsT.map Prod.fst) = cur →
      maxMonth (rowsT.map Prod.fst)
        ∉ (excludeIncompleteTotal cur rowsT).map Prod.fst)
  ∧ (maxMonth (rowsT.map Prod.fst) ≠ cur →
      excludeIncompleteTotal cur rowsT = rowsT) := by
  refine ⟨?_, ?_, ?_, ?_, ?_, ?_⟩
  · exact maxMonth_mem _ (fun hmap => hC (List.map_eq_nil_iff.mp hmap))
  · intro hcur hmem
    unfold excludeIncompleteCat at hmem
    rw [hcur] at hmem
    simp only [beq_self_eq_true, Bool.and_self, if_true] at hmem
    obtain ⟨r, hr, hrm⟩ := List.mem_map.mp hmem
    have hlt := List.of_mem_filter hr
    rw [hrm] at hlt
    rw [monthLt_irrefl] at hlt
    exact Bool.false_ne_true hlt
  · intro hne
    unfold excludeIncompleteCat
    rw [if_neg]
    intro hc
    simp only [Bool.and_eq_true, beq_iff_eq] at hc
    exact hne (YMonth.ext_eq _ _ hc.2 hc.1)
  · exact maxMonth_mem _ (fun hmap => hT (List.map_eq_nil_iff.mp hmap))
  · intro hcur hmem
    unfold excludeIncompleteTotal at hmem
    rw [hcur] at hmem
    simp only [beq_self_eq_true, if_true] at hmem
    obtain ⟨r, hr, hrm⟩ := List.mem_map.mp hmem
    have hlt := List.of_mem_filter hr
    rw [hrm] at hlt
    simp at hlt
  · intro hne
    unfold excludeIncompleteTotal
    rw [if_neg]
    intro hc
    exact hne (by simpa [beq_iff_eq] using hc)

theorem incomplete_month_exclusion_c6_witness :
    maxMonth (exRowsCat.map (fun r => r.month))
      ∈ exRowsCat.map (fun r => r.month) :=
  (incomplete_month_exclusion_c6 { year := 2024, month := 3 }
    exRowsCat exRowsTot (by decide) (by decide)).1

/-- C9 (code-bug evidence): because the replacement step matches the
SUBSTRING "0 months ago" (`.str.contains`), the month 10 months before
the most recent one is also labeled "This Month": with data months
2024-01 and 2024-11, both rows get the label "This Month, 2024-11",
instead of "10 months ago, 2024-01" for the first. -/
theorem comparative_label_bug_c9 :
    comparativeLabels [{ year := 2024, month := 1 },
        { year := 2024, month := 11 }]
      = ["This Month, 2024-11", "This Month, 2024-11"]
  ∧ relativeMonthLabel { year := 2024, month := 11 }
        { year := 2024, month := 1 }
      ≠ "10 months ago, 2024-01" := by
  constructor
  · decide
  · decide

theorem dayRange_length (lo hi : Nat) :
    (dayRange lo hi).length = hi + 1 - lo := by
  simp [dayRange]

theorem mem_dayRange (lo hi d : Nat) :
    d ∈ dayRange lo hi ↔ lo ≤ d ∧ d ≤ hi := by
  simp only [dayRange, List.mem_map, List.mem_range]
  constructor
  · rintro ⟨i, hi2, rfl⟩
    omega
  · rintro ⟨h1, h2⟩
    exact ⟨d - lo, by omega, by omega⟩

theorem dayRange_nodup (lo hi : Nat) : (dayRange lo hi).Nodup := by
  apply List.Nodup.map
  · intro a b hab
    dsimp only at hab
    omega
  · exact List.nodup_range _

theorem processGroup_length (a : String) (idx : List Nat)
    (rows : List BalRow) :
    (processGroup a idx rows).length = idx.length := by
  simp [processGroup]

theorem processGroup_accountId (a : String) (idx : List Nat)
    (rows : List BalRow) (r : RBRow) (hr : r ∈ processGroup a idx rows) :
    r.accountId = a := by
  unfold processGroup at hr
  obtain ⟨i, hi, rfl⟩ := List.mem_map.mp hr
  rfl

theorem map_getD_range {α : Type} (l : List α) (d : α) :
    (List.range l.length).map (fun i => l.getD i d) = l := by
  induction l with
  | nil => rfl
  | cons x xs ih =>
    rw [List.length_cons, List.range_succ_eq_map, List.map_cons,
      List.map_map]
    show x :: (List.range xs.length).map (fun i => xs.getD i d) = x :: xs
    rw [ih]

theorem processGroup_dates (a : String) (idx : List Nat)
    (rows : List BalRow) :
    (processGroup a idx rows).map (fun r => r.date) = idx := by
  unfold processGroup
  rw [List.map_map]
  exact map_getD_range idx 0

theorem interpolateFwd_length (col : List (Option ℚ)) :
    (interpolateFwd col).length = col.length := by
  simp [interpolateFwd]

theorem fillna0_getD_isSome (l : List (Option ℚ)) (i : Nat)
    (hi : i < l.length) :
    ((l.map fillna0).getD i none).isSome = true := by
  have hlen : i < (l.map fillna0).length := by simpa using hi
  rw [List.getD_eq_getElem _ _ hlen, List.getElem_map]
  rfl

theorem processGroup_balance_isSome (a : String) (idx : List Nat)
    (rows : List BalRow) (r : RBRow) (hr : r ∈ processGroup a idx rows) :
    r.balance.isSome = true := by
  unfold processGroup at hr
  obtain ⟨i, hi, rfl⟩ := List.mem_map.mp hr
  have hi2 : i < idx.length := List.mem_range.mp hi
  apply fillna0_getD_isSome
  rw [interpolateFwd_length]
  simpa using hi2

theorem filter_flatMap {α β : Type} (l : List α) (f : α → List β)
    (p : β → Bool) :
    (l.flatMap f).filter p = l.flatMap (fun a => (f a).filter p) := by
  induction l with
  | nil => rfl
  | cons a l ih => simp [List.flatMap_cons, List.filter_append, ih]

theorem processGroup_count (a b : String) (idx : List Nat)
    (rows : List BalRow) (d : Nat) (hnod : idx.Nodup) :
    ((processGroup b idx rows).filter
      (fun r => r.accountId == a && r.date == d)).length
      = if b = a ∧ d ∈ idx then 1 else 0 := by
  by_cases hba : b = a
  · subst hba
    have hcg : ∀ r ∈ processGroup b idx rows,
        ((r.accountId == b && r.date == d) = (r.date == d)) := by
      intro r hr
      rw [processGroup_accountId b idx rows r hr]
      simp
    rw [List.filter_congr hcg]
    have hfm : ((processGroup b idx rows).filter
          (fun r => r.date == d)).length
        = (((processGroup b idx rows).map (fun r => r.date)).filter
          (fun x => x == d)).length := by
      rw [List.filter_map, List.length_map]
      rfl
    rw [hfm, processGroup_dates]
    by_cases hd : d ∈ idx
    · rw [if_pos ⟨rfl, hd⟩]
      rw [← List.countP_eq_length_filter]
      exact List.count_eq_one_of_mem hnod hd
    · rw [if_neg (fun hc => hd hc.2)]
      rw [← List.countP_eq_length_filter]
      exact List.count_eq_zero_of_not_mem hd
  · have hcg : ∀ r ∈ processGroup b idx rows,
        ((r.accountId == a && r.date == d) = false) := by
      intro r hr
      rw [processGroup_accountId b idx rows r hr]
      simp only [Bool.and_eq_false_iff, beq_eq_false_iff_ne]
      exact Or.inl hba
    rw [List.filter_congr hcg, List.filter_false,
      if_neg (fun hc => hba hc.1)]
    rfl

theorem sum_indicator_nodup {α : Type} [DecidableEq α] (l : List α)
    (a : α) (hnd : l.Nodup) (ha : a ∈ l) :
    (l.map (fun b => if b = a then 1 else 0)).sum = 1 := by
  induction l with
  | nil => cases ha
  | cons x l ih =>
    rcases List.mem_cons.mp ha with h | h
    · subst h
      have hx : a ∉ l := (List.nodup_cons.mp hnd).1
      simp only [List.map_cons, List.sum_cons, if_pos rfl]
      have hz : (l.map (fun b => if b = a then 1 else 0)).sum = 0 := by
        apply List.sum_eq_zero
        intro y hy
        obtain ⟨b, hb, rfl⟩ := List.mem_map.mp hy
        rw [if_neg]
        intro he
        subst he
        exact hx hb
      rw [hz]
      simp
    · have hxa : ¬ (x = a) := by
        rintro rfl
        exact (List.nodup_cons.mp hnd).1 h
      simp only [List.map_cons, List.sum_cons, if_neg hxa]
      rw [ih (List.nodup_cons.mp hnd).2 h]

/-- C3: for every snapshot table whose earliest date is not in the
future, the resampled output contains exactly one row per (account, day)
pair for every day from the globally earliest snapshot date through
today, no other rows, hence exactly account_count x (today - earliest + 1)
rows, and every Balance is defined. -/
theorem resampled_grid_c3 (today : Nat) (df : List BalRow)
    (hne : df ≠ []) (hle : balMinDate df ≤ today) :
    (∀ a ∈ balAccounts df, ∀ d : Nat, balMinDate df ≤ d → d ≤ today →
      ((resampledBalanceHistory today df).filter
        (fun r => r.accountId == a && r.date == d)).length = 1)
  ∧ (∀ r ∈ resampledBalanceHistory today df,
      r.accountId ∈ balAccounts df
        ∧ balMinDate df ≤ r.date ∧ r.date ≤ today)
  ∧ (resampledBalanceHistory today df).length
      = (balAccounts df).length * (today - balMinDate df + 1)
  ∧ (∀ r ∈ resampledBalanceHistory today df, r.balance.isSome = true) := by
  refine ⟨?_, ?_, ?_, ?_⟩
  · intro a ha d hd1 hd2
    unfold resampledBalanceHistory
    rw [filter_flatMap, List.length_flatMap]
    have hterm : ∀ b ∈ balAccounts df,
        (List.length ∘ (fun b => ((processGroup b
            (dayRange (balMinDate df) today)
            ((balPrepared df).filter (fun r => r.accountId == b))).filter
          (fun r => r.accountId == a && r.date == d)))) b
        = (fun b => if b = a then 1 else 0) b := by
      intro b _
      show ((processGroup b (dayRange (balMinDate df) today)
          ((balPrepared df).filter (fun r => r.accountId == b))).filter
        (fun r => r.accountId == a && r.date == d)).length
        = if b = a then 1 else 0
      rw [processGroup_count a b _ _ d (dayRange_nodup _ _)]
      have hdmem : d ∈ dayRange (balMinDate df) today :=
        (mem_dayRange _ _ _).mpr ⟨hd1, hd2⟩
      by_cases hba : b = a
      · rw [if_pos ⟨hba, hdmem⟩, if_pos hba]
      · rw [if_neg (fun hc => hba hc.1), if_neg hba]
    rw [List.map_congr_left hterm]
    exact sum_indicator_nodup (balAccounts df) a
      (List.nodup_dedup _) ha
  · intro r hr
    unfold resampledBalanceHistory at hr
    obtain ⟨b, hb, hrg⟩ := List.mem_flatMap.mp hr
    have hacc := processGroup_accountId _ _ _ r hrg
    have hdate : r.date ∈ dayRange (balMinDate df) today := by
      rw [← processGroup_dates b (dayRange (balMinDate df) today)
        ((balPrepared df).filter (fun x => x.accountId == b))]
      exact List.mem_map_of_mem _ hrg
    obtain ⟨h1, h2⟩ := (mem_dayRange _ _ _).mp hdate
    exact ⟨hacc ▸ hb, h1, h2⟩
  · unfold resampledBalanceHistory
    rw [List.length_flatMap]
    have hterm : ∀ b ∈ balAccounts df,
        (List.length ∘ (fun a => processGroup a
          (dayRange (balMinDate df) today)
          ((balPrepared df).filter (fun r => r.accountId == a)))) b
        = (fun _ => today - balMinDate df + 1) b := by
      intro b _
      show (processGroup b (dayRange (balMinDate df) today)
          ((balPrepared df).filter (fun r => r.accountId == b))).length
        = today - balMinDate df + 1
      rw [processGroup_length, dayRange_length]
      omega
    rw [List.map_congr_left hterm, List.map_const', List.sum_replicate,
      smul_eq_mul]
  · intro r hr
    unfold resampledBalanceHistory at hr
    obtain ⟨b, hb, hrg⟩ := List.mem_flatMap.mp hr
    exact processGroup_balance_isSome _ _ _ r hrg

theorem resampled_grid_c3_witness :
    (resampledBalanceHistory 1 exBalLead).length
      = (balAccounts exBalLead).length * (1 - balMinDate exBalLead + 1) :=
  (resampled_grid_c3 1 exBalLead (by decide) (by decide)).2.2.1

theorem lastSomeBefore_of_known (col : List (Option ℚ)) (j1 : Nat)
    (v1 : ℚ) (h1 : col.getD j1 none = some v1) :
    ∀ i, j1 < i → (∀ j, j1 < j → j < i → col.getD j none = none) →
      lastSomeBefore col i = some (j1, v1) := by
  intro i
  induction i with
  | zero =>
    intro h
    exact absurd h (Nat.not_lt_zero j1)
  | succ k ih =>
    intro hlt hnone
    by_cases hk : j1 = k
    · subst hk
      unfold lastSomeBefore
      rw [h1]
    · have hkn : col.getD k none = none := hnone k (by omega) (by omega)
      unfold lastSomeBefore
      rw [hkn]
      exact ih (by omega) (fun j hj1 hj2 => hnone j hj1 (by omega))

theorem lastSomeBefore_of_allNone (col : List (Option ℚ)) :
    ∀ i, (∀ j, j < i → col.getD j none = none) →
      lastSomeBefore col i = none := by
  intro i
  induction i with
  | zero =>
    intro _
    rfl
  | succ k ih =>
    intro h
    unfold lastSomeBefore
    rw [h k (by omega)]
    exact ih (fun j hj => h j (by omega))

theorem firstSomeFrom_of_known (col : List (Option ℚ)) (j2 : Nat)
    (v2 : ℚ) (h2 : col.getD j2 none = some v2) (hlen : j2 < col.length) :
    ∀ k j, j2 - j ≤ k → j ≤ j2 →
      (∀ m, j ≤ m → m < j2 → col.getD m none = none) →
      firstSomeFrom col j = some (j2, v2) := by
  intro k
  induction k with
  | zero =>
    intro j hk hj hnone
    have hje : j = j2 := by omega
    subst hje
    unfold firstSomeFrom
    rw [dif_pos hlen, h2]
  | succ k ih =>
    intro j hk hj hnone
    by_cases hje : j = j2
    · subst hje
      unfold firstSomeFrom
      rw [dif_pos hlen, h2]
    · have hjlt : j < j2 := by omega
      have hjn : col.getD j none = none := hnone j le_rfl hjlt
      unfold firstSomeFrom
      rw [dif_pos (by omega : j < col.length), hjn]
      exact ih (j + 1) (by omega) (by omega)
        (fun m hm1 hm2 => hnone m (by omega) hm2)

theorem firstSomeFrom_of_allNone (col : List (Option ℚ)) :
    ∀ k j, col.length - j ≤ k →
      (∀ m, j ≤ m → m < col.length → col.getD m none = none) →
      firstSomeFrom col j = none := by
  intro k
  induction k with
  | zero =>
    intro j hk _
    unfold firstSomeFrom
    rw [dif_neg (by omega)]
  | succ k ih =>
    intro j hk hnone
    by_cases hj : j < col.length
    · unfold firstSomeFrom
      rw [dif_pos hj, hnone j le_rfl hj]
      exact ih (j + 1) (by omega)
        (fun m hm1 hm2 => hnone m (by omega) hm2)
    · unfold firstSomeFrom
      rw [dif_neg hj]

theorem interpCol_getD (col : List (Option ℚ)) (i : Nat)
    (hi : i < col.length) :
    ((interpolateFwd col).map fillna0).getD i none
      = fillna0 (interpAt col i) := by
  have h1 : i < ((interpolateFwd col).map fillna0).length := by
    rw [List.length_map, interpolateFwd_length]
    exact hi
  rw [List.getD_eq_getElem _ _ h1, List.getElem_map]
  congr 1
  have h2 : i < (interpolateFwd col).length := by
    rw [interpolateFwd_length]
    exact hi
  have h3 : i < (List.range col.length).length := by
    simpa using hi
  show (interpolateFwd col)[i] = interpAt col i
  unfold interpolateFwd
  rw [List.getElem_map, List.getElem_range]

/-- C4 amended: in the interpolated balance column, known values stay;
a gap strictly between two known values is linearly interpolated (the
spec's days 1 and 5 with values 100 and 500 give 200, 300, 400); a gap
after the last known value is filled with that value; but a gap BEFORE
the first known value — which the claim says is filled with the nearest
known value — is left NaN by the forward interpolation and then set to
0 by `fillna(0)`. -/
theorem interpolation_policy_c4 (col : List (Option ℚ)) :
    (∀ i v, i < col.length → col.getD i none = some v →
      ((interpolateFwd col).map fillna0).getD i none = some v)
  ∧ (∀ j1 v1 j2 v2 i, col.getD j1 none = some v1 →
      col.getD j2 none = some v2 → j1 < i → i < j2 → j2 < col.length →
      (∀ j, j1 < j → j < j2 → col.getD j none = none) →
      ((interpolateFwd col).map fillna0).getD i none
        = some (v1 + (v2 - v1) * ((i : ℚ) - (j1 : ℚ))
            / ((j2 : ℚ) - (j1 : ℚ))))
  ∧ (∀ j1 v1 i, col.getD j1 none = some v1 → j1 < i → i < col.length →
      (∀ j, j1 < j → j < col.length → col.getD j none = none) →
      ((interpolateFwd col).map fillna0).getD i none = some v1)
  ∧ (∀ i, i < col.length → (∀ j, j ≤ i → col.getD j none = none) →
      ((interpolateFwd col).map fillna0).getD i none = some 0)
  ∧ (interpolateFwd [some 100, none, none, none, some 500]).map fillna0
      = [some 100, some 200, some 300, some 400, some 500] := by
  have hknown : ∀ (col2 : List (Option ℚ)) i v, i < col2.length →
      col2.getD i none = some v →
      ((interpolateFwd col2).map fillna0).getD i none = some v := by
    intro col2 i v hi hv
    rw [interpCol_getD col2 i hi]
    unfold interpAt
    rw [hv]
    rfl
  have hinterior : ∀ (col2 : List (Option ℚ)) j1 v1 j2 v2 i,
      col2.getD j1 none = some v1 → col2.getD j2 none = some v2 →
      j1 < i → i < j2 → j2 < col2.length →
      (∀ j, j1 < j → j < j2 → col2.getD j none = none) →
      ((interpolateFwd col2).map fillna0).getD i none
        = some (v1 + (v2 - v1) * ((i : ℚ) - (j1 : ℚ))
            / ((j2 : ℚ) - (j1 : ℚ))) := by
    intro col2 j1 v1 j2 v2 i h1 h2 hj1 hj2 hlen hnone
    rw [interpCol_getD col2 i (by omega)]
    unfold interpAt
    rw [hnone i hj1 hj2]
    rw [lastSomeBefore_of_known col2 j1 v1 h1 i hj1
      (fun j ha hb => hnone j ha (by omega))]
    rw [show firstSomeFrom col2 (i + 1) = some (j2, v2) from
      firstSomeFrom_of_known col2 j2 v2 h2 hlen (j2 - (i + 1)) (i + 1)
        le_rfl (by omega) (fun m hm1 hm2 => hnone m (by omega) hm2)]
    rfl
  refine ⟨hknown col, hinterior col, ?_, ?_, ?_⟩
  · intro j1 v1 i h1 hj1 hlen hnone
    rw [interpCol_getD col i hlen]
    unfold interpAt
    rw [hnone i hj1 hlen]
    rw [lastSomeBefore_of_known col j1 v1 h1 i hj1
      (fun j ha hb => hnone j ha (by omega))]
    rw [firstSomeFrom_of_allNone col (col.length - (i + 1)) (i + 1)
      le_rfl (fun m hm1 hm2 => hnone m (by omega) hm2)]
    rfl
  · intro i hi hnone
    rw [interpCol_getD col i hi]
    unfold interpAt
    rw [hnone i le_rfl]
    rw [lastSomeBefore_of_allNone col i (fun j hj => hnone j (by omega))]
    rfl
  · have hl5 : ((interpolateFwd
        [some 100, none, none, none, some 500]).map fillna0).length
        = 5 := by
      rw [List.length_map, interpolateFwd_length]
      rfl
    apply List.ext_getElem
    · rw [hl5]
      rfl
    · intro i hia hib
      have hi5 : i < 5 := by
        rw [hl5] at hia
        exact hia
      rw [← List.getD_eq_getElem _ none hia]
      have hcol5 : ([some 100, none, none, none,
          some (500 : ℚ)] : List (Option ℚ)).length = 5 := rfl
      interval_cases i
      · rw [hknown [some 100, none, none, none, some 500] 0 100
          (by decide) rfl]
        rfl
      · rw [hinterior [some 100, none, none, none, some 500]
          0 100 4 500 1 rfl rfl (by omega) (by omega) (by decide)
          (by intro j h1 h2; interval_cases j <;> rfl)]
        norm_num
      · rw [hinterior [some 100, none, none, none, some 500]
          0 100 4 500 2 rfl rfl (by omega) (by omega) (by decide)
          (by intro j h1 h2; interval_cases j <;> rfl)]
        norm_num
      · rw [hinterior [some 100, none, none, none, some 500]
          0 100 4 500 3 rfl rfl (by omega) (by omega) (by decide)
          (by intro j h1 h2; interval_cases j <;> rfl)]
        norm_num
      · rw [hknown [some 100, none, none, none, some 500] 4 500
          (by decide) rfl]
        rfl

theorem interpolation_policy_c4_witness :
    ((interpolateFwd [some 1, none]).map fillna0).getD 1 none
      = some 1 :=
  (interpolation_policy_c4 [some 1, none]).2.2.1 0 1 1 rfl
    (by omega) (by decide)
    (fun j h1 h2 => by
      have h2b : j < 2 := by simpa using h2
      have hj : j = 1 := by omega
      subst hj
      rfl)

/-- C4 counterexample: with account A's snapshot at day 0 (value 100)
and account B's first snapshot at day 1 (value 500), B's day 0 is a
leading gap: the code fills it with 0, not with the nearest known value
500 as the claim states. -/
theorem resample_leading_gap_counterexample_c4 :
    ((resampledBalanceHistory 1 exBalLead).filter
        (fun r => r.accountId == "B" && r.date == 0)).map
      (fun r => r.balance) = [some 0]
  ∧ ((resampledBalanceHistory 1 exBalLead).filter
        (fun r => r.accountId == "B" && r.date == 0)).map
      (fun r => r.balance) ≠ [some 500] := by
  constructor
  · decide
  · decide

theorem foldl_max_le_init (l : List Nat) : ∀ a : Nat, a ≤ l.foldl max a := by
  induction l with
  | nil =>
    intro a
    exact le_rfl
  | cons x l ih =>
    intro a
    simp only [List.foldl_cons]
    calc a ≤ max a x := le_max_left a x
    _ ≤ l.foldl max (max a x) := ih (max a x)

theorem mem_le_foldl_max (l : List Nat) :
    ∀ (a : Nat), ∀ x ∈ l, x ≤ l.foldl max a := by
  induction l with
  | nil =>
    intro a x hx
    cases hx
  | cons y l ih =>
    intro a x hx
    simp only [List.foldl_cons]
    rcases List.mem_cons.mp hx with h | h
    · subst h
      calc x ≤ max a x := le_max_right a x
      _ ≤ l.foldl max (max a x) := foldl_max_le_init l (max a x)
    · exact ih (max a y) x h

theorem handle_lt_fresh (s : Store) (h : Nat)
    (hh : h ∈ s.map Prod.fst) : h < freshHandle s := by
  unfold freshHandle
  have := mem_le_foldl_max (s.map Prod.fst) 0 h hh
  omega

theorem fresh_not_mem (s : Store) :
    freshHandle s ∉ s.map Prod.fst := by
  intro h
  exact absurd (handle_lt_fresh s _ h) (lt_irrefl _)

theorem storeGet_cons_self (h : Nat) (t : List TxRow) (s : Store) :
    storeGet ((h, t) :: s) h = t := by
  unfold storeGet
  rw [List.find?_cons_of_pos]
  exact beq_self_eq_true h

theorem storeGet_cons_ne (g h : Nat) (t : List TxRow) (s : Store)
    (hne : h ≠ g) : storeGet ((h, t) :: s) g = storeGet s g := by
  unfold storeGet
  rw [List.find?_cons_of_neg]
  simp [hne]

theorem storeSet_cons_self (h : Nat) (t0 t : List TxRow) (s : Store) :
    storeSet ((h, t0) :: s) h t = (h, t) :: storeSet s h t := by
  unfold storeSet
  rw [List.map_cons]
  congr 1
  simp

theorem storeSet_not_mem (s : Store) (h : Nat) (t : List TxRow)
    (hh : h ∉ s.map Prod.fst) : storeSet s h t = s := by
  induction s with
  | nil => rfl
  | cons p s ih =>
    rw [List.map_cons, List.mem_cons] at hh
    push_neg at hh
    obtain ⟨hh1, hh2⟩ := hh
    have hp : ¬ (p.fst = h) := fun he => hh1 he.symm
    show (if p.fst == h then (h, t) else p) :: storeSet s h t = p :: s
    rw [if_neg (by simp [hp] : ¬ (p.fst == h) = true), ih hh2]

theorem toSpendingMut_eq (s : Store) (input : Nat) :
    toSpendingMut s input
      = ((freshHandle ((freshHandle s,
            (storeGet s input).filter spendPred1) :: s),
          toSpending (storeGet s input))
            :: (freshHandle s, (storeGet s input).filter spendPred1) :: s,
         freshHandle ((freshHandle s,
            (storeGet s input).filter spendPred1) :: s)) := by
  have hg1 : storeGet ((freshHandle s,
      (storeGet s input).filter spendPred1) :: s) (freshHandle s)
      = (storeGet s input).filter spendPred1 :=
    storeGet_cons_self _ _ _
  simp only [toSpendingMut, hg1]
  have hnm : freshHandle ((freshHandle s,
      (storeGet s input).filter spendPred1) :: s)
      ∉ ((freshHandle s, (storeGet s input).filter spendPred1) :: s).map
        Prod.fst :=
    fresh_not_mem _
  rw [storeGet_cons_self, storeSet_cons_self, storeSet_not_mem _ _ _ hnm,
    storeGet_cons_self, storeSet_cons_self, storeSet_not_mem _ _ _ hnm,
    storeGet_cons_self, storeSet_cons_self, storeSet_not_mem _ _ _ hnm]
  rfl

/-- C10: `_to_spending` does not mutate its argument: in the
frame-mutation model, the input frame's table is unchanged by the call
(the result is built on a copy), and the result frame holds exactly the
pure `toSpending` of the input. -/
theorem to_spending_no_mutation_c10 (s : Store) (input : Nat)
    (hin : input ∈ s.map Prod.fst) :
    storeGet (toSpendingMut s input).1 input = storeGet s input
  ∧ storeGet (toSpendingMut s input).1 (toSpendingMut s input).2
      = toSpending (storeGet s input) := by
  rw [toSpendingMut_eq]
  have hne1 : freshHandle s ≠ input :=
    Nat.ne_of_gt (handle_lt_fresh s input hin)
  have hin2 : input ∈ ((freshHandle s,
      (storeGet s input).filter spendPred1) :: s).map Prod.fst := by
    rw [List.map_cons]
    exact List.mem_cons_of_mem _ hin
  have hne2 : freshHandle ((freshHandle s,
      (storeGet s input).filter spendPred1) :: s) ≠ input :=
    Nat.ne_of_gt (handle_lt_fresh _ input hin2)
  constructor
  · rw [storeGet_cons_ne _ _ _ _ hne2, storeGet_cons_ne _ _ _ _ hne1]
  · rw [storeGet_cons_self]

theorem to_spending_no_mutation_c10_witness :
    (storeGet (toSpendingMut exStore 0).1 0 = storeGet exStore 0
  ∧ storeGet (toSpendingMut exStore 0).1 (toSpendingMut exStore 0).2
      = toSpending (storeGet exStore 0)) :=
  to_spending_no_mutation_c10 exStore 0 (by decide)

theorem sum_map_filter_split {α : Type} (p : α → Bool) (f : α → ℚ)
    (l : List α) :
    ((l.filter p).map f).sum + ((l.filter (fun a => !(p a))).map f).sum
      = (l.map f).sum := by
  induction l with
  | nil => simp
  | cons a l ih =>
    by_cases h : p a = true
    · simp only [List.filter_cons, h, if_true, Bool.not_true,
        Bool.false_eq_true, if_false, List.map_cons, List.sum_cons]
      linarith
    · have h2 : p a = false := Bool.eq_false_iff.mpr h
      simp only [List.filter_cons, h2, Bool.false_eq_true, if_false,
        Bool.not_false, if_true, List.map_cons, List.sum_cons]
      linarith

theorem sum_map_const_of_eq {α : Type} (f : α → ℚ) (c : ℚ) (l : List α)
    (h : ∀ x ∈ l, f x = c) : (l.map f).sum = l.length * c := by
  induction l with
  | nil => simp
  | cons a l ih =>
    simp only [List.map_cons, List.sum_cons, List.length_cons]
    rw [h a (List.mem_cons_self a l),
      ih (fun x hx => h x (List.mem_cons_of_mem a hx))]
    push_cast
    ring

theorem catTotal_filter_stable (l : List TxRow) (p : TxRow → Bool)
    (c : String) (hp : ∀ a ∈ l, a.category = c → p a = true) :
    catTotal (l.filter p) c = catTotal l c := by
  unfold catTotal
  rw [List.filter_filter]
  have hfe : List.filter (fun a => a.category == c && p a) l
      = List.filter (fun r => r.category == c) l := by
    apply List.filter_congr
    intro a ha
    by_cases hac : a.category = c
    · simp [hac, hp a ha hac]
    · simp [hac]
  rw [hfe]

theorem spendingRows_eq_filter (t : List TxRow) :
    spendingRows t = t.filter (fun a => spendPred2 a && spendPred1 a) := by
  unfold spendingRows
  rw [List.filter_filter]

theorem catTotal_spendingRows (t : List TxRow) (hE : Enriched t)
    (hT : TypeConsistent t) (r : TxRow) (hr : r ∈ spendingRows t) :
    catTotal (spendingRows t) r.category = catTotal t r.category := by
  obtain ⟨hrt, hneg, ht1, hc1, hc2, hc3⟩ := (mem_spendingRows t r).mp hr
  rw [spendingRows_eq_filter]
  apply catTotal_filter_stable
  intro a ha hac
  have htyp : a.typ = r.typ := hT a ha r hrt hac
  have hcat : a.amount_category = r.amount_category := by
    rw [hE a ha, hE r hrt, hac]
  have hp1 : spendPred1 a = true := by
    simp [spendPred1, hcat, hneg]
  have hp2 : spendPred2 a = true := by
    simp only [spendPred2, Bool.and_eq_true, Bool.not_eq_true',
      beq_eq_false_iff_ne, htyp, hac]
    exact ⟨⟨⟨ht1, hc1⟩, hc2⟩, hc3⟩
  rw [hp1, hp2]
  rfl

theorem sum_neg_of_classes_neg :
    ∀ (n : Nat) (l : List TxRow), l.length ≤ n →
      (∀ r ∈ l, catTotal l r.category < 0) → l ≠ [] →
      ((l.map (fun r => r.amount)).sum) < 0 := by
  intro n
  induction n with
  | zero =>
    intro l hl _ hne
    cases l with
    | nil => exact absurd rfl hne
    | cons a l => simp at hl
  | succ n ih =>
    intro l hl h hne
    cases l with
    | nil => exact absurd rfl hne
    | cons r0 rest =>
      have hsplit := sum_map_filter_split
        (fun r => r.category == r0.category) (fun r => r.amount)
        (r0 :: rest)
      have hc0 : catTotal (r0 :: rest) r0.category < 0 :=
        h r0 (List.mem_cons_self r0 rest)
      have hfc : (((r0 :: rest).filter
            (fun r => r.category == r0.category)).map
          (fun r => r.amount)).sum = catTotal (r0 :: rest) r0.category :=
        rfl
      by_cases h2 :
          (r0 :: rest).filter (fun r => !(r.category == r0.category)) = []
      · rw [← hsplit, hfc, h2]
        simpa using hc0
      · have hlen2 : ((r0 :: rest).filter
            (fun r => !(r.category == r0.category))).length
              < (r0 :: rest).length := by
          apply List.length_filter_lt_length_iff_exists.mpr
          exact ⟨r0, List.mem_cons_self r0 rest, by simp⟩
        have hsub : ∀ r ∈ (r0 :: rest).filter
            (fun r => !(r.category == r0.category)),
            catTotal ((r0 :: rest).filter
              (fun r => !(r.category == r0.category))) r.category < 0 := by
          intro r hrm
          have hrl : r ∈ (r0 :: rest) := List.mem_of_mem_filter hrm
          have hrc : ¬ (r.category = r0.category) := by
            have := List.of_mem_filter hrm
            simpa using this
          have hp : ∀ a ∈ (r0 :: rest), a.category = r.category →
              (!(a.category == r0.category)) = true := by
            intro a ha hac
            rw [hac]
            simp [hrc]
          rw [catTotal_filter_stable _ _ _ hp]
          exact h r hrl
        have hrec := ih _ (by omega) hsub h2
        rw [← hsplit, hfc]
        linarith

theorem spendingTotal_neg (t : List TxRow) (hE : Enriched t)
    (hT : TypeConsistent t) (hne : spendingRows t ≠ []) :
    spendingTotal t < 0 := by
  refine sum_neg_of_classes_neg (spendingRows t).length (spendingRows t)
    le_rfl ?_ hne
  intro r hr
  rw [catTotal_spendingRows t hE hT r hr]
  obtain ⟨hrt, hneg, -⟩ := (mem_spendingRows t r).mp hr
  rw [← hE r hrt]
  exact hneg

theorem spendingRows_ne_nil (t : List TxRow) (h : toSpending t ≠ []) :
    spendingRows t ≠ [] := by
  intro hs
  apply h
  rw [toSpending_eq_map, hs]
  rfl

/-- C2 amended: every spending row's `amount_category_pct` equals its
category's percentage of total spending, so the sum over the k rows of
one category is k times that percentage (not the percentage itself,
which the claim stated); the `amount_pct` values do sum to 100 over all
spending rows. -/
theorem spending_percentages_c2 (t : List TxRow) (hE : Enriched t)
    (hT : TypeConsistent t) (hne : toSpending t ≠ []) :
    (∀ r ∈ toSpending t,
      r.amount_category_pct = specCategoryPct t r.category)
  ∧ (∀ c : String,
      (((toSpending t).filter (fun r => r.category == c)).map
        (fun r => r.amount_category_pct)).sum
      = (((toSpending t).filter (fun r => r.category == c)).length : ℚ)
          * specCategoryPct t c)
  ∧ ((toSpending t).map (fun r => r.amount_pct)).sum = 100 := by
  have hrowpct : ∀ r ∈ toSpending t,
      r.amount_category_pct = specCategoryPct t r.category := by
    intro r hr
    rw [toSpending_eq_map] at hr
    obtain ⟨r0, hr0, rfl⟩ := List.mem_map.mp hr
    have hr0t : r0 ∈ t := ((mem_spendingRows t r0).mp hr0).1
    show r0.amount_category / spendingTotal t * 100
      = specCategoryPct t r0.category
    rw [hE r0 hr0t]
    rfl
  refine ⟨hrowpct, ?_, ?_⟩
  · intro c
    apply sum_map_const_of_eq
    intro r hrf
    have hrm : r ∈ toSpending t := List.mem_of_mem_filter hrf
    have hcc : r.category = c := by
      simpa using List.of_mem_filter hrf
    rw [hrowpct r hrm, hcc]
  · have hsp : spendingRows t ≠ [] := spendingRows_ne_nil t hne
    have hneg := spendingTotal_neg t hE hT hsp
    have hne0 : spendingTotal t ≠ 0 := ne_of_lt hneg
    rw [toSpending_eq_map, List.map_map]
    show ((spendingRows t).map
      (fun r => r.amount / spendingTotal t * 100)).sum = 100
    have hstep : ∀ r : TxRow,
        r.amount / spendingTotal t * 100
          = r.amount * (100 / spendingTotal t) := by
      intro r
      ring
    simp only [hstep]
    rw [List.sum_map_mul_right]
    show spendingTotal t * (100 / spendingTotal t) = 100
    field_simp

theorem spending_percentages_c2_witness :
    ((toSpending exSpecTable).map (fun r => r.amount_pct)).sum = 100 := by
  have hE : Enriched exSpecTable := by
    intro r hr
    simp only [exSpecTable, List.mem_cons, List.mem_singleton,
      List.not_mem_nil, or_false] at hr
    rcases hr with h | h | h <;> subst h <;>
      (simp [catTotal, exSpecTable]; try norm_num)
  have hT : TypeConsistent exSpecTable := by
    unfold TypeConsistent
    decide
  have hne : toSpending exSpecTable ≠ [] := by decide
  exact (spending_percentages_c2 exSpecTable hE hT hne).2.2

/-- C2 counterexample: on the spec's own scenario table, each of the two
Rent rows carries `amount_category_pct` = 100, so the sum over Rent's
rows is 200, which is not Rent's share (100 %) of total spending. -/
theorem spending_pct_counterexample_c2 :
    (((toSpending exSpecTable).filter
        (fun r => r.category == "Rent")).map
      (fun r => r.amount_category_pct)).sum
      ≠ specCategoryPct exSpecTable "Rent" := by
  have hneg : ((-2000 : ℚ) < 0) := by norm_num
  have hpos : ¬ ((3000 : ℚ) < 0) := by norm_num
  simp [toSpending, spendingRows, spendPred1, spendPred2, exSpecTable,
    spendingTotal, specCategoryPct, catTotal, hneg, hpos]
  norm_num

/-- C8: `clean_amount` strips every "$" and "," character and parses the
residue as a decimal number; it fails (ValueError, modelled by `none`)
exactly when the residue is not a numeral, and applying it to a column
propagates the failure instead of defaulting a value, so the column
parses iff every residual string is numeric.  Concretely "$3,200.00"
parses to 3200 and a corrupted amount fails. -/
theorem clean_amount_contract_c8 :
    (∀ s : String, (cleanAmount s).isSome = isNumericStr (stripCurrency s))
  ∧ (∀ xs : List String,
      (cleanAmountColumn xs).isSome
        = xs.all (fun s => isNumericStr (stripCurrency s)))
  ∧ cleanAmount "$3,200.00" = some 3200
  ∧ cleanAmount "$3,2oo.00" = none :=
  ⟨cleanAmount_isSome, cleanAmountColumn_isSome, by
    rw [show cleanAmount "$3,200.00"
      = some ((digitsToNat ['3', '2', '0', '0'] : ℚ)
          + (digitsToNat ['0', '0'] : ℚ) / (10 : ℚ) ^ 2) from rfl]
    rw [show digitsToNat ['3', '2', '0', '0'] = 3200 from by decide,
        show digitsToNat ['0', '0'] = 0 from by decide]
    norm_num, by rfl⟩
